import Mathlib

/-!
# Verification of the roboflow-water-project aggregation core

Shallow embedding of the per-bottle aggregation engine of `src/src/app.js`:
the outlier-filtered average (`calculateFilteredAverage`), the per-entity
ingest logic inside the `onData` handler, and the snapshot / consumption
derivation of `updateBottleTable`.

Numbers are modelled as exact rationals (`ℚ`).  The only non-rational
operation in the source is `Math.sqrt` inside the standard-deviation
computation; since the source only uses `stdDev` through the comparison
`|v - mean| <= 2 * stdDev`, and both sides are non-negative, that test is
embedded as the equivalent exact comparison `(v - mean)^2 ≤ 4 * variance`.
The equivalence with the square-root form over the reals is proved as part
of the contract theorem for the routine.
-/

namespace WaterProject

/-- `HISTORY_SIZE = 10` in `app.js`: capacity of the recent-history buffer. -/
def HISTORY_SIZE : Nat := 10

/-- `BOTTLE_CAPACITY_LITERS = 1.0` in `app.js`. -/
def BOTTLE_CAPACITY_LITERS : ℚ := 1

/-- `arr.reduce((a, b) => a + b, 0)` — a left fold starting from 0. -/
def jsSum (l : List ℚ) : ℚ := l.foldl (· + ·) 0

/-- Result record of `calculateFilteredAverage`:
`{average, filteredHistory, removedCount}`; `average` is `null` (`none`)
when no average exists. -/
structure FilterResult where
  average : Option ℚ
  filteredHistory : List ℚ
  removedCount : Nat
deriving Repr, DecidableEq

/-- `calculateFilteredAverage(history)` from `app.js` (lines 400–425).

```js
const n = history.length;
if (n === 0) return {average: null, filteredHistory: [], removedCount: 0};
if (n < 10) { const average = history.reduce((a,b) => a+b, 0) / n;
              return {average, filteredHistory: history, removedCount: 0}; }
const mean = history.reduce((s,v) => s+v, 0) / n;
const stdDev = Math.sqrt(history.reduce((s,v) => s+(v-mean)**2, 0) / n);
const threshold = 2 * stdDev;
const filteredHistory = history.filter(v => Math.abs(v - mean) <= threshold);
const removedCount = n - filteredHistory.length;
const average = filteredHistory.length === 0 ? null
  : filteredHistory.reduce((s,v) => s+v, 0) / filteredHistory.length;
return {average, filteredHistory, removedCount};
```

`Math.abs(v - mean) <= 2 * Math.sqrt(variance)` is embedded as the exact
equivalent `(v - mean)^2 ≤ 4 * variance` (both sides of the source test are
non-negative, so squaring is an order isomorphism). -/
def calculateFilteredAverage (history : List ℚ) : FilterResult :=
  let n := history.length
  if n = 0 then ⟨none, [], 0⟩
  else if n < 10 then ⟨some (jsSum history / n), history, 0⟩
  else
    let mean := jsSum history / n
    let variance := jsSum (history.map (fun v => (v - mean) ^ 2)) / n
    let filteredHistory := history.filter (fun v => decide ((v - mean) ^ 2 ≤ 4 * variance))
    let removedCount := n - filteredHistory.length
    let average :=
      if filteredHistory.length = 0 then none
      else some (jsSum filteredHistory / filteredHistory.length)
    ⟨average, filteredHistory, removedCount⟩

/-- Per-bottle state stored in `bottlesByColor`
(`{percentHistory, initialPercent, maxAvgPercent, capacity}`).
`percentHistory` holds rationals only: the source pushes a value onto it
only after the `isValidPercent` check (a non-`NaN` number), so the list
never contains a non-numeric entry. -/
structure Bottle where
  percentHistory : List ℚ
  initialPercent : Option ℚ
  maxAvgPercent : Option ℚ
  capacity : ℚ
deriving Repr, DecidableEq

/-- One incoming reading for one bottle after the parsing boundary: either
a valid finite numeric `fill_level_percent`, or an invalid/missing one.
This is the spec's intended boundary (§4.2: a valid reading "parses to a
finite number", the check the unused `toNumberOrNull` helper of `app.js`
line 329 implements).  The check `onData` actually performs also admits
non-finite numbers; that boundary is modelled separately below with
`JSNum`. -/
inductive Reading where
  | valid (v : ℚ)
  | invalid
deriving Repr, DecidableEq

/-- `percentHistory.filter(v => typeof v === 'number' && !isNaN(v))`.
On a `List ℚ` every element is a non-`NaN` number, so the filter keeps
everything. -/
def validFilter (l : List ℚ) : List ℚ := l

/-- `Math.max(...arr)` for the non-empty lists it is applied to in the
source; on `[]` JS yields `-Infinity`, which is unreachable at the single
call site (the history was just appended to), so `0` is used. -/
def mathMax : List ℚ → ℚ
  | [] => 0
  | x :: xs => xs.foldl max x

/-- `onData`, existing-bottle branch, valid reading (`app.js` 575–597):

```js
bottle.percentHistory.push(currentPercent);
if (bottle.percentHistory.length > HISTORY_SIZE) bottle.percentHistory.shift();
const validHistory = bottle.percentHistory.filter(v => typeof v === 'number' && !isNaN(v));
if (validHistory.length >= HISTORY_SIZE) {
  const filteredResult = calculateFilteredAverage(validHistory);
  const avgPercent = filteredResult.average;
  if (avgPercent !== null && (bottle.maxAvgPercent === null || avgPercent > bottle.maxAvgPercent))
    bottle.maxAvgPercent = avgPercent;
}
const maxPercent = Math.max(...bottle.percentHistory);
if (maxPercent > bottle.initialPercent) bottle.initialPercent = maxPercent;
```

In `maxPercent > bottle.initialPercent`, a `null` `initialPercent` is
coerced by JS to the number `0`, hence the `Option.getD 0`. -/
def updateValid (b : Bottle) (v : ℚ) : Bottle :=
  let hist1 := b.percentHistory ++ [v]
  let hist2 := if hist1.length > HISTORY_SIZE then hist1.tail else hist1
  let validHistory := validFilter hist2
  let maxAvg :=
    if validHistory.length ≥ HISTORY_SIZE then
      match (calculateFilteredAverage validHistory).average with
      | none => b.maxAvgPercent
      | some avg =>
        match b.maxAvgPercent with
        | none => some avg
        | some mx => if mx < avg then some avg else some mx
    else b.maxAvgPercent
  let m := mathMax hist2
  let init := if b.initialPercent.getD 0 < m then some m else b.initialPercent
  { percentHistory := hist2, initialPercent := init, maxAvgPercent := maxAvg,
    capacity := b.capacity }

/-- `onData`, existing-bottle branch, invalid reading (`app.js` 598–613):

```js
if (bottle.percentHistory.length > 0) bottle.percentHistory.shift();
const validHistory = bottle.percentHistory.filter(v => typeof v === 'number' && !isNaN(v));
if (validHistory.length >= HISTORY_SIZE) {
  const avgPercent = validHistory.reduce((a,b) => a+b, 0) / validHistory.length;
  if (bottle.maxAvgPercent === null || avgPercent > bottle.maxAvgPercent)
    bottle.maxAvgPercent = avgPercent;
} else if (validHistory.length < HISTORY_SIZE) {
  bottle.maxAvgPercent = null;
}
```

`List.tail` of `[]` is `[]`, matching the guarded `shift()`; the
`else if` guard is the exact negation of the `if` guard, so the `else`
branch always clears. -/
def updateInvalid (b : Bottle) : Bottle :=
  let hist := b.percentHistory.tail
  let validHistory := validFilter hist
  let maxAvg :=
    if validHistory.length ≥ HISTORY_SIZE then
      let avgPercent := jsSum validHistory / validHistory.length
      match b.maxAvgPercent with
      | none => some avgPercent
      | some mx => if mx < avgPercent then some avgPercent else some mx
    else none
  { percentHistory := hist, initialPercent := b.initialPercent,
    maxAvgPercent := maxAvg, capacity := b.capacity }

/-- `onData`, new-bottle branch (`app.js` 563–570): a fresh entry with a
one-element (or empty) history, `initialPercent` from the reading when
valid, no high-water mark, and the global capacity constant. -/
def createBottle (r : Reading) : Bottle :=
  match r with
  | .valid v =>
      { percentHistory := [v], initialPercent := some v, maxAvgPercent := none,
        capacity := BOTTLE_CAPACITY_LITERS }
  | .invalid =>
      { percentHistory := [], initialPercent := none, maxAvgPercent := none,
        capacity := BOTTLE_CAPACITY_LITERS }

/-- Routing of one reading for one entity key inside `onData`: create the
bottle on first sighting, otherwise update along the validity branch. -/
def ingestReading (b : Option Bottle) (r : Reading) : Bottle :=
  match b with
  | none => createBottle r
  | some bottle =>
    match r with
    | .valid v => updateValid bottle v
    | .invalid => updateInvalid bottle

/-- The state of one entity after a whole stream of readings, starting
from an unknown (not-yet-created) entity. -/
def run (rs : List Reading) : Option Bottle :=
  rs.foldl (fun b r => some (ingestReading b r)) none

/-- Externally visible per-bottle metrics of one `updateBottleTable` row. -/
structure Snapshot where
  currentAverage : Option ℚ
  consumedPercent : Option ℚ
  consumedLiters : Option ℚ
  removedCount : Nat
deriving Repr, DecidableEq

/-- One row of `updateBottleTable` (`app.js` 450–496):

```js
const history = bottle.percentHistory.filter(v => typeof v === 'number' && !isNaN(v));
const hasValidData = history.length > 0;
const filteredResult = hasValidData ? calculateFilteredAverage(history)
  : {average: null, filteredHistory: [], removedCount: 0};
const avgCurrentPercent = filteredResult.average;
let consumedPercent = null, consumedLiters = null;
if (hasValidData && bottle.maxAvgPercent !== null) {
  consumedPercent = Math.max(0, bottle.maxAvgPercent - avgCurrentPercent);
  consumedLiters = (consumedPercent / 100) * bottle.capacity;
}
```

In `bottle.maxAvgPercent - avgCurrentPercent` a (theoretically) `null`
average would be coerced by JS to `0`, hence the `Option.getD 0`. -/
def snapshot (b : Bottle) : Snapshot :=
  let history := validFilter b.percentHistory
  let fr := if 0 < history.length then calculateFilteredAverage history
            else ⟨none, [], 0⟩
  if 0 < history.length ∧ b.maxAvgPercent.isSome then
    let cp := max 0 (b.maxAvgPercent.getD 0 - fr.average.getD 0)
    ⟨fr.average, some cp, some (cp / 100 * b.capacity), fr.removedCount⟩
  else
    ⟨fr.average, none, none, fr.removedCount⟩

/-- `updateBottleTable` with its one possible runtime failure made
explicit: when `hasValidData` holds the row rendering evaluates
`avgCurrentPercent.toFixed(1)`, which throws a `TypeError` if
`avgCurrentPercent` is `null`.  Every other step of the row computation is
total. -/
def snapshotChecked (b : Bottle) : Except String Snapshot :=
  let history := validFilter b.percentHistory
  let fr := if 0 < history.length then calculateFilteredAverage history
            else ⟨none, [], 0⟩
  if 0 < history.length ∧ fr.average = none then
    Except.error "TypeError: avgCurrentPercent is null"
  else
    Except.ok (snapshot b)

/-! ## The actual parsing boundary: JS numbers with infinities and NaN

`Reading`/`Bottle` above model the spec's intended parse boundary (§4.2:
a valid reading "parses to a finite number" — the boundary the unused
`toNumberOrNull` helper of `app.js` line 329 implements with
`Number.isFinite`).  The check `onData` actually performs
(`currentPercent != null && !isNaN(currentPercent)`, line 560) never tests
finiteness, so `Infinity` passes as a valid reading.  The following model
repeats the embedding over IEEE-754 doubles restricted to the values the
aggregation path can produce: exact finite values (`num q`, rounding not
modelled), the two infinities and `NaN`. -/

inductive JSNum where
  | num (q : ℚ)
  | inf
  | ninf
  | nan
deriving Repr, DecidableEq

def JSNum.isNaN : JSNum → Bool
  | .nan => true
  | _ => false

/-- IEEE addition on the modelled values: `NaN` propagates and
`∞ + (−∞) = NaN`. -/
def jsAdd : JSNum → JSNum → JSNum
  | .nan, _ => .nan
  | _, .nan => .nan
  | .num a, .num b => .num (a + b)
  | .inf, .ninf => .nan
  | .ninf, .inf => .nan
  | .inf, _ => .inf
  | _, .inf => .inf
  | .ninf, _ => .ninf
  | _, .ninf => .ninf

/-- IEEE subtraction: `NaN` propagates and `±∞ − ±∞ = NaN`. -/
def jsSub : JSNum → JSNum → JSNum
  | .nan, _ => .nan
  | _, .nan => .nan
  | .num a, .num b => .num (a - b)
  | .inf, .inf => .nan
  | .ninf, .ninf => .nan
  | .inf, _ => .inf
  | .ninf, _ => .ninf
  | .num _, .inf => .ninf
  | .num _, .ninf => .inf

/-- `v ** 2`: squares of infinities are `∞`, `NaN` propagates. -/
def jsSq : JSNum → JSNum
  | .nan => .nan
  | .num a => .num (a ^ 2)
  | .inf => .inf
  | .ninf => .inf

/-- Division by a (list-length) natural: `NaN` propagates, infinities keep
their sign.  The `n = 0` case is unreachable in the embedded code (the
length-0 cases are guarded before every division); `NaN` stands in. -/
def jsDivNat : JSNum → Nat → JSNum
  | _, 0 => .nan
  | .nan, _ => .nan
  | .num a, n => .num (a / n)
  | .inf, _ => .inf
  | .ninf, _ => .ninf

/-- IEEE `<` on the modelled values: any comparison with `NaN` is false. -/
def jsLt : JSNum → JSNum → Bool
  | .nan, _ => false
  | _, .nan => false
  | .num a, .num b => decide (a < b)
  | .num _, .inf => true
  | .ninf, .inf => true
  | .ninf, .num _ => true
  | .inf, _ => false
  | _, .ninf => false

/-- The source's retention test `Math.abs(v - mean) <= 2 * Math.sqrt(variance)`
as one operation on the deviation `d = v - mean` and the variance `s`,
following IEEE-754: a `NaN` anywhere makes the comparison false;
`Math.sqrt` of a negative is `NaN`; `2 * Math.sqrt(∞) = ∞` and everything
(but `NaN`) compares `<= ∞`; `|±∞| <= t` is false for finite `t`; for
finite `d` and finite `s ≥ 0` the test is the exact relation `|d| ≤ 2√s`,
decided by squaring both non-negative sides. -/
def jsRetainTest (d s : JSNum) : Bool :=
  match d, s with
  | .nan, _ => false
  | _, .nan => false
  | _, .inf => true
  | _, .ninf => false
  | .inf, .num _ => false
  | .ninf, .num _ => false
  | .num a, .num b => if b < 0 then false else decide (a ^ 2 ≤ 4 * b)

/-- `Math.max` of two values: `NaN` if either is `NaN`. -/
def jsMax (a b : JSNum) : JSNum :=
  match a, b with
  | .nan, _ => .nan
  | _, .nan => .nan
  | x, y => if jsLt x y then y else x

/-- `Math.max(...arr)` on a non-empty spread; `[]` gives `-Infinity`. -/
def mathMaxJS : List JSNum → JSNum
  | [] => .ninf
  | x :: xs => xs.foldl jsMax x

/-- `arr.reduce((a, b) => a + b, 0)` over JS numbers. -/
def jsSumL (l : List JSNum) : JSNum := l.foldl jsAdd (.num 0)

structure JSFilterResult where
  average : Option JSNum
  filteredHistory : List JSNum
  removedCount : Nat
deriving Repr, DecidableEq

/-- `calculateFilteredAverage` over JS numbers: the same lines 400–425,
with every arithmetic step under IEEE semantics. -/
def calculateFilteredAverageJS (history : List JSNum) : JSFilterResult :=
  let n := history.length
  if n = 0 then ⟨none, [], 0⟩
  else if n < 10 then ⟨some (jsDivNat (jsSumL history) n), history, 0⟩
  else
    let mean := jsDivNat (jsSumL history) n
    let variance := jsDivNat (jsSumL (history.map (fun v => jsSq (jsSub v mean)))) n
    let filteredHistory := history.filter (fun v => jsRetainTest (jsSub v mean) variance)
    let removedCount := n - filteredHistory.length
    let average :=
      if filteredHistory.length = 0 then none
      else some (jsDivNat (jsSumL filteredHistory) filteredHistory.length)
    ⟨average, filteredHistory, removedCount⟩

/-- `isValidPercent` (app.js line 560) for a parsed numeric
`currentPercent`: `currentPercent != null && !isNaN(currentPercent)`.
A number is never loosely equal to `null`, so only `NaN` is excluded —
in particular `Infinity` (e.g. from `fill_level_percent: 1e400`) passes. -/
def isValidPercentJS (x : JSNum) : Bool := !x.isNaN

/-- `percentHistory.filter(v => typeof v === 'number' && !isNaN(v))` over
stored JS numbers: keeps everything but `NaN` — infinities survive. -/
def validFilterJS (l : List JSNum) : List JSNum := l.filter (fun v => !v.isNaN)

/-- Per-bottle state over JS numbers: same fields as `Bottle`, but the
history may hold non-finite numbers, as the actual validity check
permits. -/
structure BottleJS where
  percentHistory : List JSNum
  initialPercent : Option JSNum
  maxAvgPercent : Option JSNum
  capacity : ℚ
deriving Repr, DecidableEq

/-- `onData` valid-reading branch over JS numbers (same lines 575–597 as
`updateValid`). -/
def updateValidJS (b : BottleJS) (v : JSNum) : BottleJS :=
  let hist1 := b.percentHistory ++ [v]
  let hist2 := if hist1.length > HISTORY_SIZE then hist1.tail else hist1
  let validHistory := validFilterJS hist2
  let maxAvg :=
    if validHistory.length ≥ HISTORY_SIZE then
      match (calculateFilteredAverageJS validHistory).average with
      | none => b.maxAvgPercent
      | some avg =>
        match b.maxAvgPercent with
        | none => some avg
        | some mx => if jsLt mx avg then some avg else some mx
    else b.maxAvgPercent
  let m := mathMaxJS hist2
  let init := if jsLt (b.initialPercent.getD (.num 0)) m then some m
              else b.initialPercent
  { percentHistory := hist2, initialPercent := init, maxAvgPercent := maxAvg,
    capacity := b.capacity }

/-- `onData` invalid-reading branch over JS numbers (lines 598–613). -/
def updateInvalidJS (b : BottleJS) : BottleJS :=
  let hist := b.percentHistory.tail
  let validHistory := validFilterJS hist
  let maxAvg :=
    if validHistory.length ≥ HISTORY_SIZE then
      let avgPercent := jsDivNat (jsSumL validHistory) validHistory.length
      match b.maxAvgPercent with
      | none => some avgPercent
      | some mx => if jsLt mx avgPercent then some avgPercent else some mx
    else none
  { percentHistory := hist, initialPercent := b.initialPercent,
    maxAvgPercent := maxAvg, capacity := b.capacity }

/-- One `onData` step for one entity over JS numbers: the parsed
`currentPercent` (a JS number, `NaN` for unparsable input) is routed by
`isValidPercent`; a fresh bottle is created on first sighting
(lines 563–570). -/
def ingestJS (ob : Option BottleJS) (p : JSNum) : BottleJS :=
  match ob with
  | none =>
    if isValidPercentJS p then
      { percentHistory := [p], initialPercent := some p, maxAvgPercent := none,
        capacity := BOTTLE_CAPACITY_LITERS }
    else
      { percentHistory := [], initialPercent := none, maxAvgPercent := none,
        capacity := BOTTLE_CAPACITY_LITERS }
  | some b => if isValidPercentJS p then updateValidJS b p else updateInvalidJS b

/-- One entity's JS-level state after a stream of parsed readings. -/
def runJS (ps : List JSNum) : Option BottleJS :=
  ps.foldl (fun ob p => some (ingestJS ob p)) none

/-- The failure behaviour of one `updateBottleTable` row over JS numbers:
when valid data is present the rendering evaluates
`avgCurrentPercent.toFixed(1)` (app.js lines 476 and 492), which throws a
`TypeError` if the filtered average is `null`. -/
def snapshotCheckedJS (b : BottleJS) : Except String Unit :=
  let history := validFilterJS b.percentHistory
  let fr := if 0 < history.length then calculateFilteredAverageJS history
            else ⟨none, [], 0⟩
  if 0 < history.length ∧ fr.average = none then
    Except.error "TypeError: avgCurrentPercent is null"
  else
    Except.ok ()

/-! ## Helper lemmas -/

lemma jsSum_eq_sum (l : List ℚ) : jsSum l = l.sum := by
  rw [jsSum, List.sum_eq_foldl]

lemma calc_nil : calculateFilteredAverage [] = ⟨none, [], 0⟩ := rfl

lemma calc_short (l : List ℚ) (hne : l ≠ []) (hlen : l.length < 10) :
    calculateFilteredAverage l = ⟨some (jsSum l / l.length), l, 0⟩ := by
  have h0 : ¬ l.length = 0 := by
    simpa [List.length_eq_zero] using hne
  simp only [calculateFilteredAverage]
  rw [if_neg h0, if_pos hlen]

lemma calc_long (l : List ℚ) (hlen : 10 ≤ l.length) :
    calculateFilteredAverage l =
      (let mean := jsSum l / l.length
       let variance := jsSum (l.map (fun v => (v - mean) ^ 2)) / l.length
       let filtered := l.filter (fun v => decide ((v - mean) ^ 2 ≤ 4 * variance))
       ⟨if filtered.length = 0 then none else some (jsSum filtered / filtered.length),
        filtered, l.length - filtered.length⟩) := by
  have h0 : ¬ l.length = 0 := by omega
  have h10 : ¬ l.length < 10 := by omega
  simp only [calculateFilteredAverage]
  rw [if_neg h0, if_neg h10]

lemma length_mul_lt_sum_map (f : ℚ → ℚ) (c : ℚ) (l : List ℚ) (hne : l ≠ [])
    (h : ∀ x ∈ l, c < f x) : (l.length : ℚ) * c < (l.map f).sum := by
  induction l with
  | nil => exact absurd rfl hne
  | cons x xs ih =>
    rcases Decidable.eq_or_ne xs [] with rfl | hxs
    · simpa using h x (by simp)
    · have ih' := ih hxs (fun z hz => h z (List.mem_cons_of_mem _ hz))
      have hx := h x (List.mem_cons_self _ _)
      simp only [List.map_cons, List.sum_cons, List.length_cons]
      push_cast
      push_cast at ih'
      linarith

/-- Over exact arithmetic, at least one sample of a non-empty list lies
within two population standard deviations of the mean — squared form:
`(v - μ)² ≤ 4σ²`.  (Were every squared deviation strictly above `4σ²`,
their sum would strictly exceed `4nσ² = 4·Σ(v-μ)²`, forcing the
non-negative sum of squares to be negative.) -/
lemma exists_within_threshold (l : List ℚ) (hne : l ≠ []) :
    ∃ v ∈ l,
      (v - jsSum l / l.length) ^ 2 ≤
        4 * (jsSum (l.map (fun w => (w - jsSum l / l.length) ^ 2)) / l.length) := by
  set μ := jsSum l / l.length with hμ
  set f : ℚ → ℚ := fun w => (w - μ) ^ 2 with hf
  by_contra hcon
  push_neg at hcon
  have hS : jsSum (l.map f) = (l.map f).sum := jsSum_eq_sum _
  have hS0 : 0 ≤ (l.map f).sum := by
    apply List.sum_nonneg
    intro x hx
    obtain ⟨w, _, rfl⟩ := List.mem_map.mp hx
    exact sq_nonneg _
  have hn : 0 < (l.length : ℚ) := by
    exact_mod_cast List.length_pos.mpr hne
  have hlt := length_mul_lt_sum_map f (4 * (jsSum (l.map f) / l.length)) l hne hcon
  rw [hS] at hlt
  have hcancel : (l.length : ℚ) * (4 * ((l.map f).sum / l.length)) = 4 * (l.map f).sum := by
    field_simp
  rw [hcancel] at hlt
  linarith

/-- For `n ≥ 10` the retained set of `calculateFilteredAverage` is
non-empty. -/
lemma calc_filtered_ne_nil (l : List ℚ) (hne : l ≠ []) (hlen : 10 ≤ l.length) :
    (calculateFilteredAverage l).filteredHistory ≠ [] := by
  obtain ⟨v, hv, hvle⟩ := exists_within_threshold l hne
  have hmem : v ∈ (calculateFilteredAverage l).filteredHistory := by
    rw [calc_long l hlen]
    simp only [List.mem_filter]
    exact ⟨hv, by simpa using hvle⟩
  intro hnil
  rw [hnil] at hmem
  exact List.not_mem_nil v hmem

/-- For every non-empty history the routine produces a real average. -/
lemma calc_average_isSome (l : List ℚ) (hne : l ≠ []) :
    (calculateFilteredAverage l).average.isSome = true := by
  rcases lt_or_le l.length 10 with hlen | hlen
  · rw [calc_short l hne hlen]
    rfl
  · rw [calc_long l hlen]
    have hfil := calc_filtered_ne_nil l hne hlen
    rw [calc_long l hlen] at hfil
    simp only [] at hfil ⊢
    rw [if_neg (by simpa [List.length_eq_zero] using hfil)]
    rfl

/-- The embedded squared-deviation test agrees exactly, over the reals,
with the source's `Math.abs(x) <= 2 * Math.sqrt(a)` test: for `a ≥ 0`,
`x² ≤ 4a ↔ |x| ≤ 2√a`. -/
lemma sq_le_iff_abs_le_sqrt (x a : ℚ) (ha : 0 ≤ a) :
    x ^ 2 ≤ 4 * a ↔ |(x : ℝ)| ≤ 2 * Real.sqrt (a : ℝ) := by
  have h4 : Real.sqrt (4 : ℝ) = 2 := by
    rw [show (4:ℝ) = 2 ^ 2 by norm_num, Real.sqrt_sq (by norm_num : (0:ℝ) ≤ 2)]
  have ha' : (0:ℝ) ≤ (a:ℝ) := by exact_mod_cast ha
  have h4a : (0:ℝ) ≤ 4 * (a:ℝ) := by linarith
  have hreal : (x:ℝ) ^ 2 ≤ 4 * (a:ℝ) ↔ |(x:ℝ)| ≤ 2 * Real.sqrt (a:ℝ) := by
    rw [← Real.sqrt_le_sqrt_iff h4a, Real.sqrt_sq_eq_abs,
      Real.sqrt_mul (by norm_num : (0:ℝ) ≤ 4) (a:ℝ), h4]
  rw [← hreal]
  constructor <;> intro h <;> exact_mod_cast h

/-- The population variance expression of the routine is non-negative. -/
lemma variance_nonneg (l : List ℚ) :
    0 ≤ jsSum (l.map (fun w => (w - jsSum l / l.length) ^ 2)) / l.length := by
  rw [jsSum_eq_sum]
  apply div_nonneg
  · apply List.sum_nonneg
    intro x hx
    obtain ⟨w, _, rfl⟩ := List.mem_map.mp hx
    exact sq_nonneg _
  · exact_mod_cast Nat.zero_le _

example : calculateFilteredAverage [] = ⟨none, [], 0⟩ := by
  norm_num [calculateFilteredAverage]
example : (calculateFilteredAverage [1, 2, 3]).average = some 2 := by
  norm_num [calculateFilteredAverage, jsSum]
example :
    (calculateFilteredAverage [10, 20, 30, 40, 50, 60, 70, 80, 90, 100]).average
      = some 55 := by
  norm_num [calculateFilteredAverage, jsSum, List.filter]
example :
    (calculateFilteredAverage [10, 20, 30, 40, 50, 60, 70, 80, 90, 100]).removedCount
      = 0 := by
  norm_num [calculateFilteredAverage, jsSum, List.filter]

/-! ## Claim theorems -/

/-- **C1.** Contract of the filtered-average routine: an empty input yields
no average, an empty retained set and removed count 0; for `0 < n < 10` the
result is the plain arithmetic mean of all samples with removed count 0;
for `n ≥ 10` exactly the samples within two population standard deviations
of the mean are retained (stated over ℝ with the source's
`|v − μ| ≤ 2·σ` test, `σ = √(Σ(v−μ)²/n)`), the average is the unweighted
mean of the retained samples, and the removed count is the number of
discarded samples. -/
theorem filteredAverage_contract (history : List ℚ) :
    (history.length = 0 → calculateFilteredAverage history = ⟨none, [], 0⟩)
    ∧ (0 < history.length → history.length < 10 →
        calculateFilteredAverage history =
          ⟨some (history.sum / history.length), history, 0⟩)
    ∧ (10 ≤ history.length →
        (∀ v : ℚ,
          v ∈ (calculateFilteredAverage history).filteredHistory ↔
            (v ∈ history ∧
              |(v : ℝ) - ((history.sum / history.length : ℚ) : ℝ)| ≤
                2 * Real.sqrt
                  (((history.map
                      (fun w => (w - history.sum / history.length) ^ 2)).sum /
                    history.length : ℚ) : ℝ)))
        ∧ (calculateFilteredAverage history).average =
            some ((calculateFilteredAverage history).filteredHistory.sum /
              (calculateFilteredAverage history).filteredHistory.length)
        ∧ (calculateFilteredAverage history).removedCount =
            history.length - (calculateFilteredAverage history).filteredHistory.length) := by
  refine ⟨?_, ?_, ?_⟩
  · intro h
    rw [List.length_eq_zero.mp h]
    exact calc_nil
  · intro h0 hlen
    have hne : history ≠ [] := by
      intro h
      rw [h] at h0
      exact absurd h0 (by simp)
    rw [calc_short history hne hlen, jsSum_eq_sum]
  · intro hlen
    have hne : history ≠ [] := by
      intro h
      rw [h] at hlen
      exact absurd hlen (by simp)
    have hfil := calc_filtered_ne_nil history hne hlen
    refine ⟨?_, ?_, ?_⟩
    · intro v
      rw [calc_long history hlen]
      simp only [List.mem_filter, decide_eq_true_eq]
      refine and_congr_right fun _ => ?_
      have := sq_le_iff_abs_le_sqrt (v - jsSum history / history.length)
        (jsSum (history.map (fun w => (w - jsSum history / history.length) ^ 2)) /
          history.length) (variance_nonneg history)
      rw [this]
      simp only [← jsSum_eq_sum]
      push_cast
      exact Iff.rfl
    · rw [calc_long history hlen] at hfil ⊢
      simp only [] at hfil ⊢
      rw [if_neg (by simpa [List.length_eq_zero] using hfil), jsSum_eq_sum]
    · rw [calc_long history hlen]

/-- **C9.** For every non-empty sample list the routine returns a defined
(non-absent) average: at least one sample lies within two population
standard deviations of the mean, so the retained set is non-empty and the
all-discarded branch is unreachable for `n > 0` under exact arithmetic. -/
theorem filteredAverage_defined_of_nonempty (history : List ℚ)
    (hne : history ≠ []) :
    (calculateFilteredAverage history).average.isSome = true
    ∧ (10 ≤ history.length →
        (calculateFilteredAverage history).filteredHistory ≠ []) :=
  ⟨calc_average_isSome history hne, fun hlen => calc_filtered_ne_nil history hne hlen⟩

/-- Witness for C9 at the concrete one-element history `[7]`. -/
theorem filteredAverage_defined_of_nonempty_witness :
    ([7] : List ℚ) ≠ []
    ∧ ((calculateFilteredAverage [7]).average.isSome = true
        ∧ (10 ≤ ([7] : List ℚ).length →
            (calculateFilteredAverage [7]).filteredHistory ≠ [])) :=
  ⟨by simp, filteredAverage_defined_of_nonempty [7] (by simp)⟩

/-- **C2.** Valid-reading monotonic ratchet: once `maxAvgPercent` is set,
ingesting any valid numeric reading leaves it set and never decreases it
(it is replaced only by a strictly larger freshly computed filtered
average). -/
theorem highWaterAverage_ratchet_valid (b : Bottle) (v h : ℚ)
    (hset : b.maxAvgPercent = some h) :
    (updateValid b v).maxAvgPercent.isSome = true
    ∧ h ≤ (updateValid b v).maxAvgPercent.getD h := by
  simp only [updateValid, hset]
  split_ifs with h1 h2 h3
  · cases havg : (calculateFilteredAverage
        (validFilter ((b.percentHistory ++ [v]).tail))).average with
    | none => simp
    | some avg =>
      by_cases hlt : h < avg
      · simp [hlt, le_of_lt hlt]
      · simp [hlt]
  · simp
  · cases havg : (calculateFilteredAverage
        (validFilter (b.percentHistory ++ [v]))).average with
    | none => simp
    | some avg =>
      by_cases hlt : h < avg
      · simp [hlt, le_of_lt hlt]
      · simp [hlt]
  · simp

/-- Witness for C2: a bottle with high-water mark `5` ingesting the valid
reading `7`. -/
theorem highWaterAverage_ratchet_valid_witness :
    (Bottle.mk [] none (some 5) 1).maxAvgPercent = some 5
    ∧ ((updateValid (Bottle.mk [] none (some 5) 1) 7).maxAvgPercent.isSome = true
        ∧ (5 : ℚ) ≤ (updateValid (Bottle.mk [] none (some 5) 1) 7).maxAvgPercent.getD 5) :=
  ⟨rfl, highWaterAverage_ratchet_valid (Bottle.mk [] none (some 5) 1) 7 5 rfl⟩

/-- **C3.** After an invalid/missing-reading ingest (whether the entity
already existed or is created by this very reading), if the valid-numeric
subsequence of the post-erosion history is shorter than `H = 10`, the
high-water mark is unset, whatever it was before. -/
theorem invalid_erosion_clears_below_capacity (ob : Option Bottle)
    (hshort : (validFilter (ingestReading ob Reading.invalid).percentHistory).length < 10) :
    (ingestReading ob Reading.invalid).maxAvgPercent = none := by
  cases ob with
  | none => rfl
  | some b =>
    simp only [ingestReading, updateInvalid, validFilter, HISTORY_SIZE] at hshort ⊢
    rw [if_neg (by omega)]

/-- Witness for C3: a bottle holding three readings and a stale high-water
mark of `80`; after erosion two valid entries remain, below capacity. -/
theorem invalid_erosion_clears_witness :
    (validFilter (ingestReading (some (Bottle.mk [50, 50, 50] none (some 80) 1))
        Reading.invalid).percentHistory).length < 10
    ∧ (ingestReading (some (Bottle.mk [50, 50, 50] none (some 80) 1))
        Reading.invalid).maxAvgPercent = none :=
  ⟨by norm_num [ingestReading, updateInvalid, validFilter, HISTORY_SIZE],
   invalid_erosion_clears_below_capacity (some (Bottle.mk [50, 50, 50] none (some 80) 1))
     (by norm_num [ingestReading, updateInvalid, validFilter, HISTORY_SIZE])⟩

/-- **C10.** From any state satisfying the history-capacity invariant
(`length ≤ H = 10`), an invalid-reading ingest always ends with the
high-water mark unset: after erosion at most `9` entries remain, so the
`≥ H` re-ratchet branch of the invalid path never executes and the clear
rule always fires. -/
theorem invalid_always_clears_highWater (b : Bottle)
    (hcap : b.percentHistory.length ≤ 10) :
    (updateInvalid b).percentHistory.length < 10
    ∧ (updateInvalid b).maxAvgPercent = none := by
  have htail : b.percentHistory.tail.length < 10 := by
    rw [List.length_tail]
    omega
  constructor
  · simpa [updateInvalid] using htail
  · simp only [updateInvalid, validFilter, HISTORY_SIZE]
    rw [if_neg (by omega)]

/-- Witness for C10: a full ten-element history with a set high-water
mark. -/
theorem invalid_always_clears_highWater_witness :
    (Bottle.mk [1, 2, 3, 4, 5, 6, 7, 8, 9, 10] (some 10) (some 5) 1).percentHistory.length ≤ 10
    ∧ ((updateInvalid (Bottle.mk [1, 2, 3, 4, 5, 6, 7, 8, 9, 10] (some 10) (some 5) 1)).percentHistory.length < 10
        ∧ (updateInvalid (Bottle.mk [1, 2, 3, 4, 5, 6, 7, 8, 9, 10] (some 10) (some 5) 1)).maxAvgPercent = none) :=
  ⟨by simp, invalid_always_clears_highWater
    (Bottle.mk [1, 2, 3, 4, 5, 6, 7, 8, 9, 10] (some 10) (some 5) 1) (by simp)⟩

/-- Under the spec's intended finite-reading boundary the no-failure claim
would hold: for every bottle state whose history holds finite numbers, the
one latent throw site of the snapshot path (`avgCurrentPercent.toFixed(1)`
on a `null` average) is unreachable, and an invalid/missing reading is
routed to the erosion update, never rejected.  The program violates the
claim only because its actual validity check admits non-finite readings
(see `snapshot_throws_on_infinite_reading`). -/
theorem snapshot_total_on_finite_readings (b : Bottle) :
    snapshotChecked b = Except.ok (snapshot b)
    ∧ ingestReading (some b) Reading.invalid = updateInvalid b := by
  constructor
  · simp only [snapshotChecked, validFilter]
    rw [if_neg]
    rintro ⟨hpos, hnone⟩
    rw [if_pos hpos] at hnone
    have hsome := calc_average_isSome b.percentHistory (by
      intro h
      rw [h] at hpos
      exact absurd hpos (by simp))
    rw [hnone] at hsome
    exact absurd hsome (by simp)
  · rfl

lemma snapshot_of_empty (b : Bottle) (hlen : b.percentHistory.length = 0) :
    snapshot b = ⟨none, none, none, 0⟩ := by
  simp only [snapshot, validFilter]
  rw [if_neg (by omega : ¬ 0 < b.percentHistory.length),
    if_neg (by rintro ⟨hp, _⟩; omega)]

lemma snapshot_pos_noHW (b : Bottle) (hlen : 0 < b.percentHistory.length)
    (hmx : b.maxAvgPercent = none) :
    snapshot b =
      ⟨(calculateFilteredAverage b.percentHistory).average, none, none,
       (calculateFilteredAverage b.percentHistory).removedCount⟩ := by
  simp only [snapshot, validFilter, hmx]
  rw [if_pos hlen, if_neg (by rintro ⟨_, hs⟩; exact absurd hs (by simp))]

lemma snapshot_pos_HW (b : Bottle) (hw : ℚ) (hlen : 0 < b.percentHistory.length)
    (hmx : b.maxAvgPercent = some hw) :
    snapshot b =
      ⟨(calculateFilteredAverage b.percentHistory).average,
       some (max 0 (hw - (calculateFilteredAverage b.percentHistory).average.getD 0)),
       some (max 0 (hw - (calculateFilteredAverage b.percentHistory).average.getD 0)
         / 100 * b.capacity),
       (calculateFilteredAverage b.percentHistory).removedCount⟩ := by
  simp only [snapshot, validFilter, hmx]
  rw [if_pos hlen, if_pos ⟨hlen, rfl⟩]
  simp

/-- **C4.** Snapshot consumption metrics: `consumedPercent` (and
`consumedQuantity`) are defined exactly when the current average is known
and the high-water mark is set; when defined, `consumedPercent` is
`max(0, highWaterAverage − currentAverage)`, hence non-negative, and
`consumedQuantity` is `consumedPercent / 100 · capacity`. -/
theorem snapshot_consumption_contract (b : Bottle) :
    ((snapshot b).consumedPercent.isSome = true ↔
      ((snapshot b).currentAverage.isSome = true ∧ b.maxAvgPercent.isSome = true))
    ∧ ((snapshot b).consumedLiters.isSome = true ↔
      ((snapshot b).currentAverage.isSome = true ∧ b.maxAvgPercent.isSome = true))
    ∧ (∀ hw avg : ℚ, b.maxAvgPercent = some hw →
        (snapshot b).currentAverage = some avg →
          (snapshot b).consumedPercent = some (max 0 (hw - avg))
          ∧ (snapshot b).consumedLiters = some (max 0 (hw - avg) / 100 * b.capacity))
    ∧ (∀ cp : ℚ, (snapshot b).consumedPercent = some cp → 0 ≤ cp) := by
  rcases Nat.eq_zero_or_pos b.percentHistory.length with hlen | hlen
  · rw [snapshot_of_empty b hlen]
    refine ⟨by simp, by simp, ?_, by simp⟩
    intro hw avg hmx havg
    exact absurd havg (by simp)
  · have hne : b.percentHistory ≠ [] := by
      intro h
      rw [h] at hlen
      exact absurd hlen (by simp)
    cases hmx : b.maxAvgPercent with
    | none =>
      rw [snapshot_pos_noHW b hlen hmx]
      refine ⟨by simp, by simp, ?_, by simp⟩
      intro hw avg h1 h2
      exact Option.noConfusion h1
    | some hw0 =>
      obtain ⟨a, ha⟩ := Option.isSome_iff_exists.mp (calc_average_isSome _ hne)
      rw [snapshot_pos_HW b hw0 hlen hmx, ha]
      simp only [Option.getD_some]
      refine ⟨by simp [hmx], by simp [hmx], ?_, ?_⟩
      · intro hw avg h1 h2
        injection h1 with h1
        injection h2 with h2
        subst h1
        subst h2
        simp
      · intro cp hcp
        injection hcp with hcp
        rw [← hcp]
        exact le_max_left 0 _

lemma updateValid_history (b : Bottle) (v : ℚ) :
    (updateValid b v).percentHistory =
      if (b.percentHistory ++ [v]).length > HISTORY_SIZE
      then (b.percentHistory ++ [v]).tail
      else b.percentHistory ++ [v] := rfl

lemma updateInvalid_history (b : Bottle) :
    (updateInvalid b).percentHistory = b.percentHistory.tail := rfl

lemma updateValid_length_le (b : Bottle) (v : ℚ)
    (h : b.percentHistory.length ≤ 10) :
    (updateValid b v).percentHistory.length ≤ 10 := by
  rw [updateValid_history]
  split_ifs with h1
  · simp only [List.length_tail, List.length_append, List.length_singleton]
    omega
  · simp only [List.length_append, List.length_singleton, HISTORY_SIZE] at h1 ⊢
    omega

lemma ingest_preserves_bound (ob : Option Bottle) (r : Reading)
    (hb : ∀ x, ob = some x → x.percentHistory.length ≤ 10) :
    (ingestReading ob r).percentHistory.length ≤ 10 := by
  match ob, r with
  | none, .valid v => simp [ingestReading, createBottle]
  | none, .invalid => simp [ingestReading, createBottle]
  | some bb, .valid v =>
    exact updateValid_length_le bb v (hb bb rfl)
  | some bb, .invalid =>
    have := hb bb rfl
    simp only [ingestReading, updateInvalid_history, List.length_tail]
    omega

lemma run_bound : ∀ (rs : List Reading) (acc : Option Bottle),
    (∀ x, acc = some x → x.percentHistory.length ≤ 10) →
    ∀ b, rs.foldl (fun ob r => some (ingestReading ob r)) acc = some b →
      b.percentHistory.length ≤ 10 := by
  intro rs
  induction rs with
  | nil =>
    intro acc hacc b hb
    exact hacc b hb
  | cons r rs ih =>
    intro acc hacc b hb
    refine ih (some (ingestReading acc r)) ?_ b hb
    intro x hx
    injection hx with hx
    rw [← hx]
    exact ingest_preserves_bound acc r hacc

/-- **C7.** History is a bounded FIFO sliding window: along every reading
sequence the buffer never exceeds `H = 10` elements; a valid reading is
appended at the most-recent end (plain append below capacity, oldest-first
eviction at capacity), and an invalid reading only removes the oldest
element and never appends. -/
theorem history_bounded_fifo :
    (∀ (rs : List Reading) (b : Bottle), run rs = some b →
        b.percentHistory.length ≤ 10)
    ∧ (∀ (b : Bottle) (v : ℚ), b.percentHistory.length ≤ 10 →
        ((updateValid b v).percentHistory.length ≤ 10
          ∧ (b.percentHistory.length < 10 →
              (updateValid b v).percentHistory = b.percentHistory ++ [v])
          ∧ (b.percentHistory.length = 10 →
              (updateValid b v).percentHistory = b.percentHistory.tail ++ [v])))
    ∧ (∀ b : Bottle, (updateInvalid b).percentHistory = b.percentHistory.tail) := by
  refine ⟨?_, ?_, fun b => updateInvalid_history b⟩
  · intro rs b hb
    exact run_bound rs none (fun x hx => Option.noConfusion hx) b hb
  · intro b v h
    refine ⟨updateValid_length_le b v h, ?_, ?_⟩
    · intro hlt
      rw [updateValid_history]
      rw [if_neg (by
        simp only [List.length_append, List.length_singleton, HISTORY_SIZE]
        omega)]
    · intro heq
      rw [updateValid_history]
      rw [if_pos (by
        simp only [List.length_append, List.length_singleton, HISTORY_SIZE]
        omega)]
      cases hh : b.percentHistory with
      | nil =>
        rw [hh] at heq
        exact absurd heq (by simp)
      | cons x xs => simp

lemma updateValid_initial (b : Bottle) (v : ℚ) :
    (updateValid b v).initialPercent =
      if b.initialPercent.getD 0 < mathMax (updateValid b v).percentHistory
      then some (mathMax (updateValid b v).percentHistory)
      else b.initialPercent := rfl

/-- **C8 counterexample.** An existing bottle whose `initialLevel` is unset
(created from an invalid first reading) ingests the valid reading `0`; the
history maximum is `m = 0`, so the claim requires `initialLevel` to be set
to `0`, yet the code leaves it unset: the JS comparison
`maxPercent > null` coerces `null` to the number `0`, and `0 > 0` is
false. -/
theorem initialLevel_unset_counterexample :
    (Bottle.mk [] none none 1).initialPercent = none
    ∧ (updateValid (Bottle.mk [] none none 1) 0).percentHistory = [0]
    ∧ mathMax [0] = 0
    ∧ (updateValid (Bottle.mk [] none none 1) 0).initialPercent = none := by
  refine ⟨rfl, by norm_num [updateValid_history, HISTORY_SIZE], rfl, ?_⟩
  rw [updateValid_initial]
  rw [if_neg]
  norm_num [updateValid_history, HISTORY_SIZE, mathMax]

/-- **C8 (amended).** After a valid-reading ingest on an existing bottle,
with `m` the maximum raw value in the post-ingest history: when
`initialLevel` is set to `p` it is updated to `m` exactly when `m > p`
and otherwise unchanged; when `initialLevel` is unset it is set to `m`
exactly when `m > 0` (the unset value participates in the JS comparison
as `0`), and otherwise remains unset. -/
theorem initialLevel_rising_peak (b : Bottle) (v : ℚ) :
    (∀ p : ℚ, b.initialPercent = some p →
        ((p < mathMax (updateValid b v).percentHistory →
            (updateValid b v).initialPercent =
              some (mathMax (updateValid b v).percentHistory))
          ∧ (mathMax (updateValid b v).percentHistory ≤ p →
              (updateValid b v).initialPercent = some p)))
    ∧ (b.initialPercent = none →
        ((0 < mathMax (updateValid b v).percentHistory →
            (updateValid b v).initialPercent =
              some (mathMax (updateValid b v).percentHistory))
          ∧ (mathMax (updateValid b v).percentHistory ≤ 0 →
              (updateValid b v).initialPercent = none))) := by
  constructor
  · intro p hp
    constructor
    · intro hlt
      rw [updateValid_initial, if_pos (by rw [hp]; exact hlt)]
    · intro hle
      rw [updateValid_initial, if_neg (by rw [hp]; simpa using not_lt.mpr hle), hp]
  · intro hp
    constructor
    · intro hlt
      rw [updateValid_initial, if_pos (by rw [hp]; exact hlt)]
    · intro hle
      rw [updateValid_initial, if_neg (by rw [hp]; simpa using not_lt.mpr hle), hp]

/-- **C6.** Scenario A: ingesting `[10,20,...,100]` as valid readings into
a fresh entity leaves, after the 10th reading, a snapshot whose current
average is exactly `55` with removed count `0` (no sample deviates from the
mean `55` by more than two standard deviations), and a high-water mark of
`55`. -/
theorem scenarioA_linear_readings :
    ((run [.valid 10, .valid 20, .valid 30, .valid 40, .valid 50, .valid 60,
           .valid 70, .valid 80, .valid 90, .valid 100]).map
        (fun b => ((snapshot b).currentAverage, (snapshot b).removedCount,
                   b.maxAvgPercent)))
      = some (some 55, 0, some 55) := by
  norm_num [run, ingestReading, createBottle, updateValid, updateInvalid, snapshot,
    calculateFilteredAverage, jsSum, validFilter, mathMax, HISTORY_SIZE,
    BOTTLE_CAPACITY_LITERS, List.filter, List.foldl, Option.map]

/-- **C5 failing input (code bug).** The claim "no operation raises an
error … ingest and snapshot are total over all inputs" fails in the
program: a `fill_level_percent` of `1e400` parses to `Infinity`, which
passes the source's validity test (`isValidPercent` never checks
finiteness).  Ingesting the readings `10, 20, …, 90` and then that reading
into a fresh entity leaves a ten-element history containing `Infinity`:
the mean is `∞`, the squared deviations sum to `NaN`, the 2σ filter
retains nothing, so the filtered average is `null` while valid data is
present — and the row rendering `avgCurrentPercent.toFixed(1)`
(app.js lines 476 and 492) throws a `TypeError` out of `onData`. -/
theorem snapshot_throws_on_infinite_reading :
    isValidPercentJS JSNum.inf = true
    ∧ ((runJS [.num 10, .num 20, .num 30, .num 40, .num 50, .num 60, .num 70,
               .num 80, .num 90, .inf]).map
          (fun b => ((validFilterJS b.percentHistory).length,
                     (calculateFilteredAverageJS (validFilterJS b.percentHistory)).average,
                     snapshotCheckedJS b)))
        = some (10, none, Except.error "TypeError: avgCurrentPercent is null") := by
  constructor
  · rfl
  · norm_num [runJS, ingestJS, isValidPercentJS, updateValidJS, updateInvalidJS,
      calculateFilteredAverageJS, snapshotCheckedJS, validFilterJS, jsSumL, jsAdd,
      jsSub, jsSq, jsDivNat, jsLt, jsRetainTest, jsMax, mathMaxJS, JSNum.isNaN,
      HISTORY_SIZE, BOTTLE_CAPACITY_LITERS, List.filter, List.foldl, Option.map]

end WaterProject
